import Mathlib

/-!
Verification of the mev-inspect-pyrevm pipeline against its specification.

The Python sources are embedded shallowly: Python `int` becomes `Nat`/`Int`
(the decoded event words are unsigned 256-bit words, two's-complement
conversion is written out explicitly), Python `float` arithmetic on profit
ratios and thresholds is modelled exactly over `ℚ`, `str.lower()` becomes
`String.toLower`, Python dicts keyed by insertion order become association
lists, and fallible paths return `Option`/`Except`.
-/

/-! ## Python primitives -/

/-- Python `str.lower()`: lower-case every character (addresses are ASCII
hex strings, so per-character lowering is exact).  Written over the character
list so that it evaluates inside the kernel. -/
def pyLower (s : String) : String := ⟨s.data.map Char.toLower⟩

/-- Python `a / b` on numbers, exact over `ℚ` (floats are modelled by the
rationals they denote).  Written with `Rat.divInt` so that it evaluates
inside the kernel; `Rat.divInt_eq_div` recovers the `ℚ` division. -/
def pyDiv (a b : Int) : ℚ := Rat.divInt a b

/-- First `some` produced by `f` along a list (models a loop with `break`). -/
def firstSome {α β : Type} (f : α → Option β) : List α → Option β
  | [] => none
  | a :: as =>
    match f a with
    | some b => some b
    | none => firstSome f as

theorem firstSome_eq_some {α β : Type} {f : α → Option β} {l : List α} {b : β}
    (h : firstSome f l = some b) : ∃ a ∈ l, f a = some b := by
  induction l with
  | nil => simp [firstSome] at h
  | cons a as ih =>
    simp only [firstSome] at h
    cases hfa : f a with
    | some b2 =>
      rw [hfa] at h
      exact ⟨a, by simp, by rw [hfa]; exact h⟩
    | none =>
      rw [hfa] at h
      obtain ⟨x, hx, hfx⟩ := ih h
      exact ⟨x, by simp [hx], hfx⟩

/-! ## Data model (`mev_inspect/models.py`) -/

/-- `models.Swap`: one decoded swap.  Field names follow the dataclass. -/
structure Swap where
  tx_hash : String
  block_number : Nat
  dex : String
  pool_address : String
  token_in : String
  token_out : String
  amount_in : Nat
  amount_out : Nat
  amount_in_eth : ℚ := 0
  amount_out_eth : ℚ := 0
  transaction_position : Nat := 0
  from_address : String := ""
  deriving DecidableEq, Repr

/-- `models.Arbitrage`: an arbitrage found in a block. -/
structure Arbitrage where
  tx_hash : Option String
  block_number : Nat
  path : List Swap
  profit_eth : ℚ
  profit_token : String
  profit_amount : Int
  gas_cost_eth : ℚ := 0
  net_profit_eth : ℚ := 0
  deriving DecidableEq, Repr

/-- `models.Sandwich`: a sandwich attack found in a block. -/
structure Sandwich where
  frontrun_tx : Option String
  target_tx : String
  backrun_tx : Option String
  block_number : Nat
  profit_eth : ℚ
  profit_token : String
  profit_amount : Int
  victim_swap : Swap
  gas_cost_eth : ℚ := 0
  net_profit_eth : ℚ := 0
  frontrun_swap : Option Swap := none
  backrun_swap : Option Swap := none
  deriving DecidableEq, Repr

/-! ## Arbitrage detection (`mev_inspect/detectors/arbitrage.py`) -/

namespace ArbitrageDetector

/-- The connectivity loop of `_check_arbitrage_path`: walking the swaps with a
running `current_token`, requiring `swap.token_in == current_token` (exact
string comparison, as in the Python `!=` test) and, for non-final swaps, the
look-ahead check `swaps[i+1].token_in == swap.token_out`. -/
def pathConnected : List Swap → String → Bool
  | [], _ => true
  | s :: rest, current =>
    if s.token_in == current then
      match rest with
      | [] => pathConnected [] s.token_out
      | next :: tl =>
        if next.token_in == s.token_out then pathConnected (next :: tl) s.token_out
        else false
    else false

/-- `MIN_PROFIT_RATIO = 1.001` from `_check_arbitrage_path` (the literal
`1.001` modelled as the exact rational it denotes). -/
def MIN_PROFIT_RATIO : ℚ := mkRat 1001 1000

/-- `ArbitrageDetector._check_arbitrage_path`: `None` on fewer than two swaps;
otherwise require the case-insensitive cycle test between the first and last
swap, the exact connectivity walk, and `profit_ratio >= MIN_PROFIT_RATIO`
where `profit_ratio = total_out / total_in` if `total_in > 0` else `0`. -/
def check_arbitrage_path : List Swap → String → Nat → Option Arbitrage
  | [], _, _ => none
  | [_], _, _ => none
  | first :: b :: rest, txHash, blockNumber =>
    let swaps := first :: b :: rest
    let last := (b :: rest).getLast (List.cons_ne_nil b rest)
    if pyLower first.token_in == pyLower last.token_out then
      if pathConnected swaps first.token_in then
        let total_in := first.amount_in
        let total_out := last.amount_out
        let profit_ratio : ℚ :=
          if 0 < total_in then pyDiv (total_out : Int) (total_in : Int) else 0
        if MIN_PROFIT_RATIO ≤ profit_ratio then
          some
            { tx_hash := some txHash
              block_number := blockNumber
              path := swaps
              profit_eth :=
                pyDiv ((total_out : Int) - (total_in : Int)) (Int.ofNat (10 ^ 18))
              profit_token := first.token_in
              profit_amount := (total_out : Int) - (total_in : Int) }
        else none
      else none
    else none

/-- One step of building the insertion-ordered `swaps_by_tx` dictionary. -/
def insertByTx (acc : List (String × List Swap)) (s : Swap) :
    List (String × List Swap) :=
  if acc.any (fun p => p.1 == s.tx_hash) then
    acc.map (fun p => if p.1 == s.tx_hash then (p.1, p.2 ++ [s]) else p)
  else acc ++ [(s.tx_hash, [s])]

/-- `swaps_by_tx`: group swaps by transaction hash, keys in first-seen order,
values in input order (Python dict insertion semantics). -/
def groupByTx (swaps : List Swap) : List (String × List Swap) :=
  swaps.foldl insertByTx []

/-- The nested window scan of `detect_historical` for one transaction: for
`i in range(n)` and `j in range(i+1, n+1)` take the slice `tx_swaps[i:j]`,
test windows of length at least two, and stop at the first success (the inner
`break` plus the `any(a.tx_hash == tx_hash ...)` outer `break`). -/
def detectArbInTx (txSwaps : List Swap) (txHash : String) (blockNumber : Nat) :
    Option Arbitrage :=
  let n := txSwaps.length
  firstSome
    (fun i =>
      firstSome
        (fun j =>
          let path := (txSwaps.drop i).take (j - i)
          if 2 ≤ path.length then check_arbitrage_path path txHash blockNumber
          else none)
        (List.range' (i + 1) (n - i)))
    (List.range n)

/-- `ArbitrageDetector.detect_historical`: group the block swaps by
transaction, and for every group of at least two swaps append the first
arbitrage the window scan finds (at most one per transaction, because the
outer loop breaks as soon as `arbitrages` holds this transaction hash). -/
def detect_historical (swaps : List Swap) (blockNumber : Nat) : List Arbitrage :=
  (groupByTx swaps).filterMap
    (fun g =>
      if 2 ≤ g.2.length then detectArbInTx g.2 g.1 blockNumber else none)

/- (chain/cycle predicates for the reported paths) -/

/-- The chain property claimed of a reported path: consecutive swaps chain
case-insensitively. -/
def chainsBool : List Swap → Bool
  | [] => true
  | [_] => true
  | a :: b :: rest =>
    (pyLower a.token_out == pyLower b.token_in) && chainsBool (b :: rest)

/-- The cycle property claimed of a reported path: the first input token
equals the last output token, case-insensitively. -/
def closesBool (path : List Swap) : Bool :=
  match path.head?, path.getLast? with
  | some f, some l => pyLower f.token_in == pyLower l.token_out
  | _, _ => true

/-- Concrete example swaps: a profitable a→b→a cycle in transaction `"t"`. -/
def swapAB : Swap :=
  { tx_hash := "t", block_number := 1, dex := "uniswap_v2"
    pool_address := "p1", token_in := "A", token_out := "b"
    amount_in := 100, amount_out := 150 }

/-- Second leg of the example cycle (closes back to token `a`). -/
def swapBA : Swap :=
  { tx_hash := "t", block_number := 1, dex := "uniswap_v2"
    pool_address := "p2", token_in := "b", token_out := "a"
    amount_in := 150, amount_out := 200 }

/-- A second, disjoint profitable c→d→c cycle in the same transaction. -/
def swapCD : Swap :=
  { tx_hash := "t", block_number := 1, dex := "uniswap_v2"
    pool_address := "p3", token_in := "c", token_out := "d"
    amount_in := 100, amount_out := 150 }

/-- Second leg of the second example cycle. -/
def swapDC : Swap :=
  { tx_hash := "t", block_number := 1, dex := "uniswap_v2"
    pool_address := "p4", token_in := "d", token_out := "c"
    amount_in := 150, amount_out := 200 }

theorem pathConnected_chains :
    ∀ (l : List Swap) (cur : String),
      pathConnected l cur = true → chainsBool l = true := by
  intro l
  induction l with
  | nil => intro cur _; rfl
  | cons a t ih =>
    intro cur h
    cases t with
    | nil => rfl
    | cons b t2 =>
      simp only [pathConnected] at h
      split at h
      · split at h
        · rename_i h1 h2
          simp only [chainsBool, Bool.and_eq_true]
          refine ⟨?_, ih _ h⟩
          have hb : b.token_in = a.token_out := by
            simpa using h2
          simp [hb]
        · exact absurd h (by simp)
      · exact absurd h (by simp)

theorem check_arbitrage_path_some {l : List Swap} {tx : String} {bn : Nat}
    {arb : Arbitrage} (h : check_arbitrage_path l tx bn = some arb) :
    arb.path = l ∧ arb.tx_hash = some tx ∧
      chainsBool l = true ∧ closesBool l = true := by
  match l with
  | [] => simp [check_arbitrage_path] at h
  | [x] => simp [check_arbitrage_path] at h
  | a :: b :: rest =>
    simp only [check_arbitrage_path] at h
    by_cases h1 :
        (pyLower a.token_in ==
          pyLower ((b :: rest).getLast (List.cons_ne_nil b rest)).token_out) = true
    · rw [if_pos h1] at h
      by_cases h2 : pathConnected (a :: b :: rest) a.token_in = true
      · rw [if_pos h2] at h
        by_cases h3 : 0 < a.amount_in
        · rw [if_pos h3] at h
          by_cases h4 :
              MIN_PROFIT_RATIO ≤
                pyDiv (((b :: rest).getLast (List.cons_ne_nil b rest)).amount_out : Int)
                  (a.amount_in : Int)
          · rw [if_pos h4] at h
            cases h
            refine ⟨rfl, rfl, pathConnected_chains _ _ h2, ?_⟩
            simp only [closesBool, List.head?_cons]
            rw [List.getLast?_eq_getLast (a :: b :: rest) (by simp),
              List.getLast_cons (List.cons_ne_nil b rest)]
            simpa using h1
          · rw [if_neg h4] at h
            exact absurd h (by simp)
        · rw [if_neg h3] at h
          by_cases h4 : MIN_PROFIT_RATIO ≤ (0 : ℚ)
          · rw [if_pos h4] at h
            cases h
            refine ⟨rfl, rfl, pathConnected_chains _ _ h2, ?_⟩
            simp only [closesBool, List.head?_cons]
            rw [List.getLast?_eq_getLast (a :: b :: rest) (by simp),
              List.getLast_cons (List.cons_ne_nil b rest)]
            simpa using h1
          · rw [if_neg h4] at h
            exact absurd h (by simp)
      · rw [if_neg h2] at h
        exact absurd h (by simp)
    · rw [if_neg h1] at h
      exact absurd h (by simp)

theorem detectArbInTx_some {l : List Swap} {k : String} {bn : Nat}
    {arb : Arbitrage} (h : detectArbInTx l k bn = some arb) :
    arb.tx_hash = some k ∧ chainsBool arb.path = true ∧
      closesBool arb.path = true := by
  unfold detectArbInTx at h
  obtain ⟨i, _, hinner⟩ := firstSome_eq_some h
  obtain ⟨j, _, hcheck⟩ := firstSome_eq_some hinner
  by_cases hlen : 2 ≤ ((l.drop i).take (j - i)).length
  · rw [if_pos hlen] at hcheck
    obtain ⟨hpath, htx, hchain, hclose⟩ := check_arbitrage_path_some hcheck
    exact ⟨htx, by rw [hpath]; exact hchain, by rw [hpath]; exact hclose⟩
  · rw [if_neg hlen] at hcheck
    exact absurd hcheck (by simp)

/-- C1: every Arbitrage returned by `ArbitrageDetector.detect_historical` has
a path whose consecutive swaps chain (`path[i].token_out = path[i+1].token_in`)
and which closes a cycle (`path[0].token_in = path[-1].token_out`), all token
addresses compared case-insensitively. -/
theorem C1_reported_arbitrage_chains_and_closes
    (swaps : List Swap) (blockNumber : Nat) (arb : Arbitrage)
    (h : arb ∈ detect_historical swaps blockNumber) :
    chainsBool arb.path = true ∧ closesBool arb.path = true := by
  unfold detect_historical at h
  rw [List.mem_filterMap] at h
  obtain ⟨g, _, hsome⟩ := h
  by_cases h2 : 2 ≤ g.2.length
  · rw [if_pos h2] at hsome
    obtain ⟨_, hchain, hclose⟩ := detectArbInTx_some hsome
    exact ⟨hchain, hclose⟩
  · rw [if_neg h2] at hsome
    exact absurd hsome (by simp)

/-- Witness for C1 at the concrete profitable cycle `[swapAB, swapBA]`. -/
theorem C1_witness :
    ∃ a, a ∈ detect_historical [swapAB, swapBA] 1 ∧
      chainsBool a.path = true ∧ closesBool a.path = true := by
  refine ⟨{ tx_hash := some "t", block_number := 1, path := [swapAB, swapBA]
            profit_eth := Rat.divInt 100 (Int.ofNat (10 ^ 18))
            profit_token := "A", profit_amount := 100 }, ?_, ?_⟩
  · decide
  · exact C1_reported_arbitrage_chains_and_closes [swapAB, swapBA] 1 _ (by decide)

theorem MIN_PROFIT_RATIO_eq : MIN_PROFIT_RATIO = 1 + (1 : ℚ) / 1000 := by
  rw [ MIN_PROFIT_RATIO, Rat.mkRat_eq_divInt, Rat.divInt_eq_div]
  norm_num

/-- C2: a connected cyclic sub-sequence of at least two swaps is accepted as
an Arbitrage exactly when `amount_out` of the last swap divided by
`amount_in` of the first swap is at least `1 + ε` with `ε = 0.001`; in
particular nothing is produced when the first `amount_in` is `0`. -/
theorem C2_accept_iff_profit_ratio
    (a b : Swap) (rest : List Swap) (tx : String) (bn : Nat)
    (hconn : pathConnected (a :: b :: rest) a.token_in = true)
    (hcyc : pyLower a.token_in =
      pyLower ((b :: rest).getLast (List.cons_ne_nil b rest)).token_out) :
    (check_arbitrage_path (a :: b :: rest) tx bn).isSome = true ↔
      (0 < a.amount_in ∧
        1 + (1 : ℚ) / 1000 ≤
          (((b :: rest).getLast (List.cons_ne_nil b rest)).amount_out : ℚ) /
            (a.amount_in : ℚ)) := by
  have hdiv :
      pyDiv (((b :: rest).getLast (List.cons_ne_nil b rest)).amount_out : Int)
          (a.amount_in : Int) =
        (((b :: rest).getLast (List.cons_ne_nil b rest)).amount_out : ℚ) /
          (a.amount_in : ℚ) := by
    rw [pyDiv, Rat.divInt_eq_div]
    push_cast
    rfl
  simp only [check_arbitrage_path]
  rw [if_pos (by simpa using hcyc), if_pos hconn]
  by_cases h3 : 0 < a.amount_in
  · rw [if_pos h3]
    by_cases h4 :
        MIN_PROFIT_RATIO ≤
          pyDiv (((b :: rest).getLast (List.cons_ne_nil b rest)).amount_out : Int)
            (a.amount_in : Int)
    · rw [if_pos h4]
      simp only [Option.isSome_some, true_iff]
      refine ⟨h3, ?_⟩
      rw [← MIN_PROFIT_RATIO_eq, ← hdiv]
      exact h4
    · rw [if_neg h4]
      simp only [Option.isSome_none, Bool.false_eq_true, false_iff, not_and]
      intro _
      rw [← MIN_PROFIT_RATIO_eq, ← hdiv]
      exact fun hc => h4 hc
  · rw [if_neg h3]
    have h4 : ¬ MIN_PROFIT_RATIO ≤ (0 : ℚ) := by
      rw [ MIN_PROFIT_RATIO_eq]; norm_num
    rw [if_neg h4]
    simp only [Option.isSome_none, Bool.false_eq_true, false_iff, not_and]
    intro hc
    exact absurd hc h3

/-- Witness for C2: the profitable concrete cycle `[swapAB, swapBA]` with
ratio `200/100 = 2 ≥ 1.001`. -/
theorem C2_witness :
    (check_arbitrage_path [swapAB, swapBA] "t" 9).isSome = true ↔
      (0 < swapAB.amount_in ∧
        1 + (1 : ℚ) / 1000 ≤
          ((([swapBA].getLast (List.cons_ne_nil swapBA [])).amount_out : ℚ) /
            (swapAB.amount_in : ℚ))) :=
  C2_accept_iff_profit_ratio swapAB swapBA [] "t" 9 (by decide) (by decide)

theorem insertByTx_keys (acc : List (String × List Swap)) (s : Swap) :
    (insertByTx acc s).map Prod.fst =
      if acc.any (fun p => p.1 == s.tx_hash) then acc.map Prod.fst
      else acc.map Prod.fst ++ [s.tx_hash] := by
  unfold insertByTx
  split
  · rw [List.map_map]
    congr 1
    funext p
    dsimp
    split <;> rfl
  · simp

theorem groupByTx_foldl_keys_nodup (l : List Swap) :
    ∀ acc : List (String × List Swap),
      (acc.map Prod.fst).Nodup → ((l.foldl insertByTx acc).map Prod.fst).Nodup := by
  induction l with
  | nil => intro acc h; simpa using h
  | cons s t ih =>
    intro acc h
    simp only [List.foldl_cons]
    apply ih
    rw [insertByTx_keys]
    by_cases hany : acc.any (fun p => p.1 == s.tx_hash) = true
    · rw [if_pos hany]; exact h
    · rw [if_neg hany]
      rw [List.nodup_append]
      refine ⟨h, List.nodup_singleton _, ?_⟩
      intro k hk hk2
      simp only [List.mem_singleton] at hk2
      subst hk2
      rw [List.mem_map] at hk
      obtain ⟨p, hp, hp1⟩ := hk
      exact hany (List.any_eq_true.mpr ⟨p, hp, by simp [hp1]⟩)

theorem groupByTx_keys_nodup (swaps : List Swap) :
    ((groupByTx swaps).map Prod.fst).Nodup :=
  groupByTx_foldl_keys_nodup swaps [] (by simp)

theorem filterMap_tx_unique
    (f : (String × List Swap) → Option Arbitrage)
    (hf : ∀ g a2, f g = some a2 → a2.tx_hash = some g.1) :
    ∀ groups : List (String × List Swap), (groups.map Prod.fst).Nodup →
      ∀ tx : String,
        ((groups.filterMap f).filter (fun a => a.tx_hash == some tx)).length ≤ 1 := by
  intro groups
  induction groups with
  | nil => intro _ tx; simp
  | cons g gs ih =>
    intro hnodup tx
    simp only [List.map_cons, List.nodup_cons] at hnodup
    obtain ⟨hg1, hgs⟩ := hnodup
    simp only [List.filterMap_cons]
    cases hfg : f g with
    | none => exact ih hgs tx
    | some a2 =>
      have htx2 := hf g a2 hfg
      simp only [List.filter_cons]
      by_cases hsel : (a2.tx_hash == some tx) = true
      · rw [if_pos hsel]
        have htxeq : g.1 = tx := by
          rw [htx2] at hsel
          simpa using hsel
        have hrest :
            (gs.filterMap f).filter (fun a => a.tx_hash == some tx) = [] := by
          rw [List.filter_eq_nil_iff]
          intro y hy
          rw [List.mem_filterMap] at hy
          obtain ⟨g2, hg2, hsome2⟩ := hy
          have hty := hf g2 y hsome2
          simp only [beq_iff_eq, hty]
          intro hcon
          have hk : g2.1 = tx := by simpa using hcon
          exact hg1 (List.mem_map.mpr ⟨g2, hg2, by rw [hk, htxeq]⟩)
        simp [hrest]
      · rw [if_neg hsel]
        exact ih hgs tx

/-- Counterexample to C3: transaction `"t"` holds two disjoint profitable
cycles (`[swapAB, swapBA]` and `[swapCD, swapDC]`); the second one passes
`_check_arbitrage_path` on its own, yet `detect_historical` reports only the
first because once an arbitrage for a transaction is recorded the scan moves
to the next transaction. -/
theorem C3_counterexample :
    (detect_historical [swapAB, swapBA, swapCD, swapDC] 7).map
        (fun a => a.path) = [[swapAB, swapBA]] ∧
      (check_arbitrage_path [swapCD, swapDC] "t" 7).isSome = true := by
  constructor
  · decide
  · decide

/-- C3 (amended): once an Arbitrage is accepted for a transaction the scan
leaves that transaction entirely, so `detect_historical` reports at most one
Arbitrage per transaction hash. -/
theorem C3_amended_at_most_one_per_tx
    (swaps : List Swap) (blockNumber : Nat) (tx : String) :
    ((detect_historical swaps blockNumber).filter
      (fun a => a.tx_hash == some tx)).length ≤ 1 := by
  unfold detect_historical
  refine filterMap_tx_unique _ ?_ (groupByTx swaps) (groupByTx_keys_nodup swaps) tx
  intro g a2 hfg
  by_cases h2 : 2 ≤ g.2.length
  · rw [if_pos h2] at hfg
    exact (detectArbInTx_some hfg).1
  · rw [if_neg h2] at hfg
    exact absurd hfg (by simp)

end ArbitrageDetector

/-! ## Uniswap V3 swap-event decoding
(`mev_inspect/dex/uniswap_v3.py` and
`mev_inspect/enhanced_swap_detector.py`) -/

/-- Python `int.from_bytes(bs, "big")`. -/
def bytesToNat (bs : List Nat) : Nat := bs.foldl (fun acc b2 => acc * 256 + b2) 0

/-- The dictionary `_parse_v3_swap_log` builds for a recognised V3 swap log. -/
structure ParsedSwapLog where
  pool : String
  protocol : String
  amount_in : Nat
  amount_out : Nat
  log_index : Nat
  token_in_is_token0 : Bool
  deriving DecidableEq, Repr

namespace EnhancedSwapDetector

/-- `EnhancedSwapDetector._parse_v3_swap_log`: reject short payloads, read
`amount0`/`amount1` as big-endian words, convert from two's complement
(`raw - 2^256` when `raw ≥ 2^255`), then branch on the signs exactly as the
Python does: for `amount0 < 0 < amount1` it returns
`amount_in = abs(amount0)`, `amount_out = amount1`,
`token_in_is_token0 = True`, and symmetrically; same-signed amounts give
`None`. -/
def parse_v3_swap_log (pool : String) (data : List Nat) (log_index : Nat) :
    Option ParsedSwapLog :=
  if data.length < 160 then none
  else
    let amount0_raw := bytesToNat (data.take 32)
    let amount1_raw := bytesToNat ((data.drop 32).take 32)
    let amount0 : Int :=
      if 2 ^ 255 ≤ amount0_raw then (amount0_raw : Int) - Int.ofNat (2 ^ 256)
      else (amount0_raw : Int)
    let amount1 : Int :=
      if 2 ^ 255 ≤ amount1_raw then (amount1_raw : Int) - Int.ofNat (2 ^ 256)
      else (amount1_raw : Int)
    if amount0 < 0 ∧ 0 < amount1 then
      some { pool, protocol := "UniswapV3", amount_in := amount0.natAbs
             amount_out := amount1.toNat, log_index, token_in_is_token0 := true }
    else if amount1 < 0 ∧ 0 < amount0 then
      some { pool, protocol := "UniswapV3", amount_in := amount1.natAbs
             amount_out := amount0.toNat, log_index, token_in_is_token0 := false }
    else none

end EnhancedSwapDetector

namespace UniswapV3Parser

/-- The direction branch of `UniswapV3Parser.parse_swap` (uniswap_v3.py),
after `amount0`/`amount1` have been ABI-decoded as signed `int256` and the
pool tokens fetched: a positive amount is the side the pool receives
(`token_in`), the negative amount the side it pays out (`token_out`), and
same-signed amounts are rejected.  Returns
`(token_in, token_out, amount_in, amount_out)`. -/
def parse_swap_direction (amount0 amount1 : Int) (token0 token1 : String) :
    Option (String × String × Nat × Nat) :=
  if 0 < amount0 ∧ amount1 < 0 then
    some (token0, token1, amount0.natAbs, amount1.natAbs)
  else if 0 < amount1 ∧ amount0 < 0 then
    some (token1, token0, amount1.natAbs, amount0.natAbs)
  else none

end UniswapV3Parser

/-- The 160-byte data payload of a V3 swap log with `amount0 = -5`
(two's complement `2^256 - 5`) and `amount1 = 10`. -/
def v3LogData : List Nat :=
  List.replicate 31 255 ++ [251] ++ List.replicate 31 0 ++ [10] ++
    List.replicate 96 0

/-- C4: the claimed direction rule (negative amount = the side the pool pays
out) is what `UniswapV3Parser.parse_swap` implements, but
`_parse_v3_swap_log` in the enhanced detector contradicts it (and its own
inline comment): on `amount0 = -5`, `amount1 = 10` it labels the swap
token0→token1 and uses `abs(amount0)` as `amount_in`, where the claim (and
the sibling parser) give a token1→token0 swap with `amount_in = amount1 = 10`
and `amount_out = |amount0| = 5`.  Same-signed amounts are rejected by both. -/
theorem C4_v3_direction_bug :
    EnhancedSwapDetector.parse_v3_swap_log "p" v3LogData 0 =
      some { pool := "p", protocol := "UniswapV3", amount_in := 5
             amount_out := 10, log_index := 0, token_in_is_token0 := true } ∧
    UniswapV3Parser.parse_swap_direction (-5) 10 "t0" "t1" =
      some ("t1", "t0", 10, 5) ∧
    EnhancedSwapDetector.parse_v3_swap_log "p"
      (List.replicate 31 0 ++ [5] ++ List.replicate 31 0 ++ [10] ++
        List.replicate 96 0) 0 = none ∧
    UniswapV3Parser.parse_swap_direction 5 10 "t0" "t1" = none := by
  set_option maxRecDepth 4000 in
  refine ⟨by decide, by decide, by decide, by decide⟩

/-! ## Stage-3 fusion of log and call candidates
(`EnhancedSwapDetector._cross_reference_swaps` / `detect_swaps`) -/

namespace EnhancedSwapDetector

/-- A call-stream candidate produced by `_extract_swaps_from_calls`. -/
structure CallSwap where
  pool : String
  gas_used : Nat
  depth : Nat
  call_index : Nat
  deriving DecidableEq, Repr

/-- `enhanced_swap_detector.EnhancedSwap` (the fields the fusion writes). -/
structure EnhancedSwap where
  tx_hash : String
  pool_address : String
  protocol : String
  token_in : String
  token_out : String
  amount_in : Nat
  amount_out : Nat
  from_address : String
  to_address : String
  gas_used : Nat
  detection_method : String
  confidence : ℚ
  call_depth : Nat
  is_multi_hop : Bool
  hop_count : Nat
  log_index : Option Nat := none
  internal_call_index : Option Nat := none
  deriving DecidableEq, Repr

/-- The `self.stats` dictionary of `EnhancedSwapDetector.__init__`. -/
structure DetectorStats where
  total_transactions : Nat := 0
  swaps_detected_log_only : Nat := 0
  swaps_detected_internal_calls : Nat := 0
  swaps_detected_hybrid : Nat := 0
  multi_hop_swaps : Nat := 0
  false_positives_filtered : Nat := 0
  deriving DecidableEq, Repr

/-- `call_swap_map = {s["pool"].lower(): s for s in call_swaps}`: a Python
dict comprehension keeps the last entry for a duplicated key. -/
def callSwapLookup (callSwaps : List CallSwap) (pool : String) : Option CallSwap :=
  (callSwaps.filter (fun s => pyLower s.pool == pool)).getLast?

/-- One iteration of the first fusion loop, for one log candidate:
`_get_pool_tokens` is abstracted as the map `pt` (returning the pair of
token addresses, `""` on failure, mirroring `if not token0 or not token1:
continue`); a pool found in `call_swap_map` gives a `"hybrid"` record with
confidence `0.95`, otherwise a `"log"` record with confidence `0.65`. -/
def logPhaseRecord (txHash : String) (pt : String → String × String)
    (callSwaps : List CallSwap) (ls : ParsedSwapLog) : Option EnhancedSwap :=
  let token0 := (pt ls.pool).1
  let token1 := (pt ls.pool).2
  if token0 == "" || token1 == "" then none
  else
    let tokin := if ls.token_in_is_token0 then token0 else token1
    let tokout := if ls.token_in_is_token0 then token1 else token0
    match callSwapLookup callSwaps (pyLower ls.pool) with
    | some cs =>
      some { tx_hash := txHash, pool_address := ls.pool, protocol := ls.protocol
             token_in := tokin, token_out := tokout
             amount_in := ls.amount_in, amount_out := ls.amount_out
             from_address := "", to_address := "", gas_used := cs.gas_used
             detection_method := "hybrid", confidence := mkRat 95 100
             call_depth := cs.depth, is_multi_hop := false, hop_count := 1
             log_index := some ls.log_index
             internal_call_index := some cs.call_index }
    | none =>
      some { tx_hash := txHash, pool_address := ls.pool, protocol := ls.protocol
             token_in := tokin, token_out := tokout
             amount_in := ls.amount_in, amount_out := ls.amount_out
             from_address := "", to_address := "", gas_used := 0
             detection_method := "log", confidence := mkRat 65 100
             call_depth := 0, is_multi_hop := false, hop_count := 1
             log_index := some ls.log_index }

/-- The `matched_pools` set built by the first fusion loop: the lowered pools
of log candidates whose tokens resolved and whose pool sits in
`call_swap_map`. -/
def matchedPools (pt : String → String × String) (callSwaps : List CallSwap)
    (logSwaps : List ParsedSwapLog) : List String :=
  logSwaps.filterMap (fun ls =>
    if ((pt ls.pool).1 == "" || (pt ls.pool).2 == "") then none
    else if (callSwapLookup callSwaps (pyLower ls.pool)).isSome then
      some (pyLower ls.pool)
    else none)

/-- One iteration of the second fusion loop, for one call candidate whose
pool was not matched in the first loop: an `"internal_call"` record with
confidence `0.55` and zero amounts (skipped when the tokens do not
resolve). -/
def callPhaseRecord (txHash : String) (pt : String → String × String)
    (matched : List String) (cs : CallSwap) : Option EnhancedSwap :=
  if matched.contains (pyLower cs.pool) then none
  else
    let token0 := (pt cs.pool).1
    let token1 := (pt cs.pool).2
    if token0 == "" || token1 == "" then none
    else
      some { tx_hash := txHash, pool_address := cs.pool, protocol := "Unknown"
             token_in := token0, token_out := token1
             amount_in := 0, amount_out := 0
             from_address := "", to_address := "", gas_used := cs.gas_used
             detection_method := "internal_call", confidence := mkRat 55 100
             call_depth := cs.depth, is_multi_hop := false, hop_count := 1
             internal_call_index := some cs.call_index }

/-- `EnhancedSwapDetector._cross_reference_swaps`: the first loop over the
log candidates followed by the second loop over the unmatched call
candidates (the `matched_pools` set is only read in the second loop, so the
sequential Python loops are exactly this pair of `filterMap`s). -/
def cross_reference_swaps (txHash : String) (logSwaps : List ParsedSwapLog)
    (callSwaps : List CallSwap) (pt : String → String × String) :
    List EnhancedSwap :=
  logSwaps.filterMap (logPhaseRecord txHash pt callSwaps) ++
    callSwaps.filterMap
      (callPhaseRecord txHash pt (matchedPools pt callSwaps logSwaps))

/-- The tail of `EnhancedSwapDetector.detect_swaps` on the hybrid path:
update `total_transactions` and `swaps_detected_hybrid`, then keep only the
records with `confidence >= min_confidence`.  No other statistic is touched;
in particular `false_positives_filtered` is never incremented anywhere in
the module. -/
def detect_swaps_filter (min_confidence : ℚ) (stats : DetectorStats)
    (raw : List EnhancedSwap) : List EnhancedSwap × DetectorStats :=
  let stats2 :=
    { stats with
        total_transactions := stats.total_transactions + 1
        swaps_detected_hybrid := stats.swaps_detected_hybrid + raw.length }
  (raw.filter (fun s => min_confidence ≤ s.confidence), stats2)

/-- The fresh statistics dictionary from `__init__` (all counters zero). -/
def initStats : DetectorStats := {}

end EnhancedSwapDetector

namespace EnhancedSwapDetector

/-- A concrete log candidate whose pool has no call-stream counterpart. -/
def logOnlyCandidate : ParsedSwapLog :=
  { pool := "pl", protocol := "UniswapV2", amount_in := 1, amount_out := 2
    log_index := 0, token_in_is_token0 := true }

/-- A pool-token map that resolves every pool to the pair `("a", "b")`. -/
def constPoolTokens : String → String × String := fun _ => ("a", "b")

/-- Counterexample to C5: a pool only in the log stream yields a record with
`detection_method = "log"` and confidence `0.65`; with
`min_confidence = 0.7` that record is discarded by `detect_swaps`, yet the
`false_positives_filtered` statistic stays `0` — the counter is initialised
in `__init__` and never incremented, so the discarded record is not counted
as the claim states. -/
theorem C5_counterexample :
    (cross_reference_swaps "t" [logOnlyCandidate] [] constPoolTokens).map
        (fun s => (s.detection_method, s.confidence)) = [("log", mkRat 65 100)] ∧
    (detect_swaps_filter (mkRat 7 10) initStats
        (cross_reference_swaps "t" [logOnlyCandidate] [] constPoolTokens)).1 = [] ∧
    (detect_swaps_filter (mkRat 7 10) initStats
        (cross_reference_swaps "t" [logOnlyCandidate] []
          constPoolTokens)).2.false_positives_filtered = 0 := by
  refine ⟨by decide, by decide, by decide⟩

/-- C5 (amended): in Stage-3 fusion, a pool in both streams yields a record
with `detection_method = "hybrid"` and confidence `0.95`, a pool only in the
log stream `"log"` with `0.65`, a pool only in the call stream
`"internal_call"` with `0.55` and zero amounts; every record is of one of
these three shapes.  `detect_swaps` keeps exactly the records with
confidence at least `min_confidence` — the discarded ones are, however, not
counted: `false_positives_filtered` is never incremented. -/
theorem C5_amended_fusion
    (txHash : String) (logSwaps : List ParsedSwapLog) (callSwaps : List CallSwap)
    (pt : String → String × String) (minC : ℚ) (stats : DetectorStats)
    (raw : List EnhancedSwap) :
    (∀ s ∈ cross_reference_swaps txHash logSwaps callSwaps pt,
      (s.detection_method = "hybrid" ∧ s.confidence = mkRat 95 100) ∨
      (s.detection_method = "log" ∧ s.confidence = mkRat 65 100) ∨
      (s.detection_method = "internal_call" ∧ s.confidence = mkRat 55 100 ∧
        s.amount_in = 0 ∧ s.amount_out = 0)) ∧
    (∀ ls ∈ logSwaps, (pt ls.pool).1 ≠ "" → (pt ls.pool).2 ≠ "" →
      ∀ cs, callSwapLookup callSwaps (pyLower ls.pool) = some cs →
        ∃ s ∈ cross_reference_swaps txHash logSwaps callSwaps pt,
          s.pool_address = ls.pool ∧ s.detection_method = "hybrid" ∧
            s.confidence = mkRat 95 100) ∧
    (∀ ls ∈ logSwaps, (pt ls.pool).1 ≠ "" → (pt ls.pool).2 ≠ "" →
      callSwapLookup callSwaps (pyLower ls.pool) = none →
        ∃ s ∈ cross_reference_swaps txHash logSwaps callSwaps pt,
          s.pool_address = ls.pool ∧ s.detection_method = "log" ∧
            s.confidence = mkRat 65 100) ∧
    (∀ cs ∈ callSwaps, (pt cs.pool).1 ≠ "" → (pt cs.pool).2 ≠ "" →
      (matchedPools pt callSwaps logSwaps).contains (pyLower cs.pool) = false →
        ∃ s ∈ cross_reference_swaps txHash logSwaps callSwaps pt,
          s.pool_address = cs.pool ∧ s.detection_method = "internal_call" ∧
            s.confidence = mkRat 55 100 ∧ s.amount_in = 0 ∧ s.amount_out = 0) ∧
    ((detect_swaps_filter minC stats raw).1 =
      raw.filter (fun s => minC ≤ s.confidence)) ∧
    ((detect_swaps_filter minC stats raw).2.false_positives_filtered =
      stats.false_positives_filtered) := by
  refine ⟨?_, ?_, ?_, ?_, rfl, rfl⟩
  · intro s hs
    rw [cross_reference_swaps, List.mem_append] at hs
    rcases hs with hs | hs
    · rw [List.mem_filterMap] at hs
      obtain ⟨ls, _, hrec⟩ := hs
      simp only [logPhaseRecord] at hrec
      by_cases hts : (((pt ls.pool).1 == "") || ((pt ls.pool).2 == "")) = true
      · rw [if_pos hts] at hrec
        exact absurd hrec (by simp)
      · rw [if_neg hts] at hrec
        cases hcs : callSwapLookup callSwaps (pyLower ls.pool) with
        | some cs =>
          rw [hcs] at hrec
          cases hrec
          exact Or.inl ⟨rfl, rfl⟩
        | none =>
          rw [hcs] at hrec
          cases hrec
          exact Or.inr (Or.inl ⟨rfl, rfl⟩)
    · rw [List.mem_filterMap] at hs
      obtain ⟨cs, _, hrec⟩ := hs
      simp only [callPhaseRecord] at hrec
      by_cases hm :
          (matchedPools pt callSwaps logSwaps).contains (pyLower cs.pool) = true
      · rw [if_pos hm] at hrec
        exact absurd hrec (by simp)
      · rw [if_neg hm] at hrec
        by_cases hts : (((pt cs.pool).1 == "") || ((pt cs.pool).2 == "")) = true
        · rw [if_pos hts] at hrec
          exact absurd hrec (by simp)
        · rw [if_neg hts] at hrec
          cases hrec
          exact Or.inr (Or.inr ⟨rfl, rfl, rfl, rfl⟩)
  · intro ls hls hne1 hne2 cs hcs
    have hts : ¬((((pt ls.pool).1 == "") || ((pt ls.pool).2 == "")) = true) := by
      simp [hne1, hne2]
    have hrec : ∃ r, logPhaseRecord txHash pt callSwaps ls = some r ∧
        r.pool_address = ls.pool ∧ r.detection_method = "hybrid" ∧
          r.confidence = mkRat 95 100 := by
      simp only [logPhaseRecord]
      rw [if_neg hts, hcs]
      exact ⟨_, rfl, rfl, rfl, rfl⟩
    obtain ⟨r, hr, h1, h2, h3⟩ := hrec
    exact ⟨r, List.mem_append.mpr (Or.inl (List.mem_filterMap.mpr
      ⟨ls, hls, hr⟩)), h1, h2, h3⟩
  · intro ls hls hne1 hne2 hcs
    have hts : ¬((((pt ls.pool).1 == "") || ((pt ls.pool).2 == "")) = true) := by
      simp [hne1, hne2]
    have hrec : ∃ r, logPhaseRecord txHash pt callSwaps ls = some r ∧
        r.pool_address = ls.pool ∧ r.detection_method = "log" ∧
          r.confidence = mkRat 65 100 := by
      simp only [logPhaseRecord]
      rw [if_neg hts, hcs]
      exact ⟨_, rfl, rfl, rfl, rfl⟩
    obtain ⟨r, hr, h1, h2, h3⟩ := hrec
    exact ⟨r, List.mem_append.mpr (Or.inl (List.mem_filterMap.mpr
      ⟨ls, hls, hr⟩)), h1, h2, h3⟩
  · intro cs hcs hne1 hne2 hm
    have hts : ¬((((pt cs.pool).1 == "") || ((pt cs.pool).2 == "")) = true) := by
      simp [hne1, hne2]
    have hrec : ∃ r, callPhaseRecord txHash pt
        (matchedPools pt callSwaps logSwaps) cs = some r ∧
        r.pool_address = cs.pool ∧ r.detection_method = "internal_call" ∧
          r.confidence = mkRat 55 100 ∧ r.amount_in = 0 ∧ r.amount_out = 0 := by
      simp only [callPhaseRecord]
      rw [if_neg (by simpa using hm), if_neg hts]
      exact ⟨_, rfl, rfl, rfl, rfl, rfl, rfl⟩
    obtain ⟨r, hr, h1, h2, h3, h4, h5⟩ := hrec
    exact ⟨r, List.mem_append.mpr (Or.inr (List.mem_filterMap.mpr
      ⟨cs, hcs, hr⟩)), h1, h2, h3, h4, h5⟩

end EnhancedSwapDetector

/-! ## Sandwich detection (`mev_inspect/detectors/sandwich.py`) -/

/-- Python `int(x)` on a non-negative value: truncation toward zero. -/
def pyInt (q : ℚ) : Int := q.num.tdiv (q.den : Int)

/-- Multiplication of the exact rationals denoting Python floats, written
with `Rat.divInt` so that it evaluates inside the kernel. -/
def pyMul (a b : ℚ) : ℚ := Rat.divInt (a.num * b.num) ((a.den : Int) * (b.den : Int))

/-- `acc.append([y])` when the loop body produced `some y`, else `acc`
(models a Python `if found: results.append(found)`). -/
def appendIfSome {β : Type} (acc : List β) (o : Option β) : List β :=
  match o with
  | some y => acc ++ [y]
  | none => acc

namespace SandwichDetector

/-- The sort key of `pool_swaps.sort(key=lambda s: s.transaction_position)`. -/
def posLe (a b : Swap) : Prop :=
  a.transaction_position ≤ b.transaction_position

instance : DecidableRel posLe := fun _ _ => Nat.decLe _ _

instance : IsTotal Swap posLe := ⟨fun _ _ => Nat.le_total _ _⟩

instance : IsTrans Swap posLe := ⟨fun _ _ _ => Nat.le_trans⟩

/-- Python `list.sort` is stable, so on the key `transaction_position` it
produces exactly the stable insertion sort. -/
def sortByPosition (ps : List Swap) : List Swap :=
  List.insertionSort posLe ps

/-- One step of building the insertion-ordered `swaps_by_pool` dictionary
(keyed by `swap.pool_address.lower()`). -/
def insertByPool (acc : List (String × List Swap)) (s : Swap) :
    List (String × List Swap) :=
  if acc.any (fun p => p.1 == pyLower s.pool_address) then
    acc.map (fun p =>
      if p.1 == pyLower s.pool_address then (p.1, p.2 ++ [s]) else p)
  else acc ++ [(pyLower s.pool_address, [s])]

/-- `swaps_by_pool`: group swaps by lower-cased pool address. -/
def groupByPool (swaps : List Swap) : List (String × List Swap) :=
  swaps.foldl insertByPool []

/-- `SandwichDetector._is_sandwich_pattern`: the first victim swaps in the
same direction as the front-run, and the back-run in the opposite direction
(all token addresses compared lower-cased); empty victims fail. -/
def is_sandwich_pattern (frontrun : Swap) (victims : List Swap)
    (backrun : Swap) : Bool :=
  match victims with
  | [] => false
  | victim :: _ =>
    (pyLower frontrun.token_in == pyLower victim.token_in &&
      pyLower frontrun.token_out == pyLower victim.token_out) &&
    (pyLower backrun.token_in == pyLower victim.token_out &&
      pyLower backrun.token_out == pyLower victim.token_in)

/-- `SandwichDetector._calculate_sandwich_profit`: when front-run input and
back-run output are the same token (lower-cased), the profit is
`backrun.amount_out - frontrun.amount_in` scaled to ETH when positive,
otherwise `0.0`. -/
def calculate_sandwich_profit (frontrun backrun : Swap) : ℚ :=
  if pyLower frontrun.token_in == pyLower backrun.token_out then
    let profit : Int := (backrun.amount_out : Int) - (frontrun.amount_in : Int)
    if 0 < profit then pyDiv profit (Int.ofNat (10 ^ 18)) else 0
  else 0

/-- One inner-loop iteration of `detect_historical` for the candidate pair
at positions `i` (front-run) and `j` (back-run) of the sorted pool swaps:
skip when either `from_address` is empty or they differ lower-cased; take
`victims = pool_swaps[i+1:j]`; require the sandwich pattern, a first victim
and positive profit, and build the `Sandwich` exactly as the Python does. -/
def tryMake (ps : List Swap) (i j : Nat) (blockNumber : Nat) : Option Sandwich :=
  ps[i]?.bind fun frontrun =>
    ps[j]?.bind fun backrun =>
      if frontrun.from_address == "" || backrun.from_address == "" then none
      else if !(pyLower frontrun.from_address == pyLower backrun.from_address) then
        none
      else
        let victims := (ps.drop (i + 1)).take (j - (i + 1))
        if is_sandwich_pattern frontrun victims backrun then
          let profit := calculate_sandwich_profit frontrun backrun
          victims.head?.bind fun victim =>
            if 0 < profit then
              some
                { frontrun_tx := some frontrun.tx_hash
                  target_tx := victim.tx_hash
                  backrun_tx := some backrun.tx_hash
                  block_number := blockNumber
                  profit_eth := profit
                  profit_token := backrun.token_out
                  profit_amount := pyInt (pyMul profit (mkRat (Int.ofNat (10 ^ 18)) 1))
                  victim_swap := victim
                  frontrun_swap := some frontrun
                  backrun_swap := some backrun }
            else none
        else none

/-- The double loop of `detect_historical` over one pool's sorted swaps:
`i in range(len - 2)`, `j in range(i + 2, len)`; the first success for a
given `i` is appended and the inner loop breaks ("only report first sandwich
per frontrun"). -/
def sandwichesForPool (ps : List Swap) (blockNumber : Nat) : List Sandwich :=
  (List.range (ps.length - 2)).foldl
    (fun acc i =>
      appendIfSome acc
        (firstSome (fun j => tryMake ps i j blockNumber)
          (List.range' (i + 2) (ps.length - (i + 2))))) []

/-- `SandwichDetector.detect_historical`: group by pool, skip pools with
fewer than three swaps, sort each pool's swaps by transaction position
(stable), and scan for front-run/victims/back-run patterns. -/
def detect_historical (swaps : List Swap) (blockNumber : Nat) : List Sandwich :=
  ((groupByPool swaps).map (fun g =>
    if g.2.length < 3 then []
    else sandwichesForPool (sortByPosition g.2) blockNumber)).flatten

end SandwichDetector

namespace UniswapV2Parser

/-- The `Swap(...)` constructor call of `UniswapV2Parser.parse_swap`: only
`tx_hash`, `block_number`, `dex`, `pool_address`, the tokens and the amounts
are passed, so `transaction_position` and `from_address` keep the dataclass
defaults (`0` and `""`). -/
def parse_swap_result (txHash : String) (blockNumber : Nat)
    (pool tokin tokout : String) (amountIn amountOut : Nat) : Swap :=
  { tx_hash := txHash, block_number := blockNumber, dex := "uniswap_v2"
    pool_address := pool, token_in := tokin, token_out := tokout
    amount_in := amountIn, amount_out := amountOut }

end UniswapV2Parser

theorem firstSome_eq_none {α β : Type} {f : α → Option β} {l : List α}
    (h : ∀ a ∈ l, f a = none) : firstSome f l = none := by
  induction l with
  | nil => rfl
  | cons a t ih =>
    simp only [firstSome]
    rw [h a (by simp)]
    exact ih (fun x hx => h x (by simp [hx]))

theorem foldl_appendIfSome_mem {α β : Type} (f : α → Option β) :
    ∀ (l : List α) (acc : List β) (x : β),
      x ∈ l.foldl (fun acc2 i => appendIfSome acc2 (f i)) acc →
      x ∈ acc ∨ ∃ i ∈ l, f i = some x := by
  intro l
  induction l with
  | nil => intro acc x hx; exact Or.inl (by simpa using hx)
  | cons a t ih =>
    intro acc x hx
    simp only [List.foldl_cons] at hx
    cases hfa : f a with
    | some y =>
      rw [hfa] at hx
      simp only [appendIfSome] at hx
      rcases ih _ x hx with h | ⟨i, hi, hfi⟩
      · rw [List.mem_append] at h
        rcases h with h | h
        · exact Or.inl h
        · simp only [List.mem_singleton] at h
          subst h
          exact Or.inr ⟨a, by simp, hfa⟩
      · exact Or.inr ⟨i, by simp [hi], hfi⟩
    | none =>
      rw [hfa] at hx
      simp only [appendIfSome] at hx
      rcases ih _ x hx with h | ⟨i, hi, hfi⟩
      · exact Or.inl h
      · exact Or.inr ⟨i, by simp [hi], hfi⟩

namespace SandwichDetector

theorem sandwichesForPool_mem {ps : List Swap} {bn : Nat} {sd : Sandwich}
    (h : sd ∈ sandwichesForPool ps bn) :
    ∃ i j, i + 2 ≤ j ∧ tryMake ps i j bn = some sd := by
  unfold sandwichesForPool at h
  rcases foldl_appendIfSome_mem
      (fun i => firstSome (fun j => tryMake ps i j bn)
        (List.range' (i + 2) (ps.length - (i + 2))))
      (List.range (ps.length - 2)) [] sd h with h2 | ⟨i, _, hfi⟩
  · simp at h2
  · obtain ⟨j, hj, htm⟩ := firstSome_eq_some hfi
    rw [List.mem_range'_1] at hj
    exact ⟨i, j, hj.1, htm⟩

theorem tryMake_some {ps : List Swap} {i j bn : Nat} {sd : Sandwich}
    (hij1 : i + 1 < j) (h : tryMake ps i j bn = some sd) :
    ∃ F V B, ps[i]? = some F ∧ ps[i + 1]? = some V ∧ ps[j]? = some B ∧
      sd.frontrun_swap = some F ∧ sd.victim_swap = V ∧ sd.backrun_swap = some B ∧
      F.from_address ≠ "" ∧ B.from_address ≠ "" ∧
      pyLower F.from_address = pyLower B.from_address ∧
      pyLower F.token_in = pyLower V.token_in ∧
      pyLower F.token_out = pyLower V.token_out ∧
      pyLower B.token_in = pyLower V.token_out ∧
      pyLower B.token_out = pyLower V.token_in ∧
      F.amount_in < B.amount_out := by
  unfold tryMake at h
  cases hFi : ps[i]? with
  | none => rw [hFi] at h; simp at h
  | some F =>
    rw [hFi] at h
    simp only [Option.some_bind] at h
    cases hBj : ps[j]? with
    | none => rw [hBj] at h; simp at h
    | some B =>
      rw [hBj] at h
      simp only [Option.some_bind] at h
      by_cases hemp : (F.from_address == "" || B.from_address == "") = true
      · rw [if_pos hemp] at h; exact absurd h (by simp)
      · rw [if_neg hemp] at h
        by_cases haddr :
            (!(pyLower F.from_address == pyLower B.from_address)) = true
        · rw [if_pos haddr] at h; exact absurd h (by simp)
        · rw [if_neg haddr] at h
          cases hvic : (ps.drop (i + 1)).take (j - (i + 1)) with
          | nil =>
            rw [hvic] at h
            simp [is_sandwich_pattern] at h
          | cons V tl =>
            rw [hvic] at h
            by_cases hpat : is_sandwich_pattern F (V :: tl) B = true
            · rw [if_pos hpat] at h
              simp only [List.head?_cons, Option.some_bind] at h
              by_cases hprof : 0 < calculate_sandwich_profit F B
              · rw [if_pos hprof] at h
                cases h
                have hVi : ps[i + 1]? = some V := by
                  have hh : ((ps.drop (i + 1)).take (j - (i + 1))).head? = some V := by
                    rw [hvic]; rfl
                  rw [List.head?_take, if_neg (by omega), List.head?_drop] at hh
                  exact hh
                have hp := hpat
                simp only [is_sandwich_pattern, Bool.and_eq_true, beq_iff_eq] at hp
                obtain ⟨⟨p1, p2⟩, p3, p4⟩ := hp
                have hamt : F.amount_in < B.amount_out := by
                  unfold calculate_sandwich_profit at hprof
                  by_cases hbase :
                      (pyLower F.token_in == pyLower B.token_out) = true
                  · rw [if_pos hbase] at hprof
                    by_cases hd :
                        (0 : Int) < (B.amount_out : Int) - (F.amount_in : Int)
                    · omega
                    · rw [if_neg hd] at hprof
                      exact absurd hprof (by norm_num)
                  · rw [if_neg hbase] at hprof
                    exact absurd hprof (by norm_num)
                have hne1 : F.from_address ≠ "" := by
                  intro he
                  exact hemp (by simp [he])
                have hne2 : B.from_address ≠ "" := by
                  intro he
                  exact hemp (by simp [he])
                have haddr2 : pyLower F.from_address = pyLower B.from_address := by
                  simpa using haddr
                exact ⟨F, V, B, rfl, hVi, rfl, rfl, rfl, rfl, hne1, hne2,
                  haddr2, p1, p2, p3, p4, hamt⟩
              · rw [if_neg hprof] at h
                exact absurd h (by simp)
            · rw [if_neg hpat] at h
              exact absurd h (by simp)

theorem groupByPool_foldl_pool (l : List Swap) :
    ∀ acc : List (String × List Swap),
      (∀ g ∈ acc, ∀ s ∈ g.2, pyLower s.pool_address = g.1) →
      ∀ g ∈ l.foldl insertByPool acc, ∀ s ∈ g.2, pyLower s.pool_address = g.1 := by
  induction l with
  | nil => intro acc hacc; simpa using hacc
  | cons x t ih =>
    intro acc hacc
    simp only [List.foldl_cons]
    apply ih
    intro g hg s hs
    unfold insertByPool at hg
    split at hg
    · rw [List.mem_map] at hg
      obtain ⟨p, hp, hpe⟩ := hg
      by_cases hk : (p.1 == pyLower x.pool_address) = true
      · rw [if_pos hk] at hpe
        subst hpe
        rw [List.mem_append] at hs
        rcases hs with hs | hs
        · exact hacc p hp s hs
        · simp only [List.mem_singleton] at hs
          have hk2 : p.1 = pyLower x.pool_address := by simpa using hk
          rw [hs, hk2]
      · rw [if_neg hk] at hpe
        subst hpe
        exact hacc p hp s hs
    · rw [List.mem_append] at hg
      rcases hg with hg | hg
      · exact hacc g hg s hs
      · simp only [List.mem_singleton] at hg
        subst hg
        simp only [List.mem_singleton] at hs
        rw [hs]

theorem groupByPool_mem_pool (swaps : List Swap) :
    ∀ g ∈ groupByPool swaps, ∀ s ∈ g.2, pyLower s.pool_address = g.1 :=
  groupByPool_foldl_pool swaps [] (by simp)

theorem groupByPool_foldl_subset (Q : Swap → Prop) (l : List Swap) :
    ∀ acc : List (String × List Swap),
      (∀ g ∈ acc, ∀ s ∈ g.2, Q s) → (∀ x ∈ l, Q x) →
      ∀ g ∈ l.foldl insertByPool acc, ∀ s ∈ g.2, Q s := by
  induction l with
  | nil => intro acc hacc _; simpa using hacc
  | cons x t ih =>
    intro acc hacc hl
    simp only [List.foldl_cons]
    refine ih _ ?_ (fun y hy => hl y (by simp [hy]))
    intro g hg s hs
    unfold insertByPool at hg
    split at hg
    · rw [List.mem_map] at hg
      obtain ⟨p, hp, hpe⟩ := hg
      by_cases hk : (p.1 == pyLower x.pool_address) = true
      · rw [if_pos hk] at hpe
        subst hpe
        rw [List.mem_append] at hs
        rcases hs with hs | hs
        · exact hacc p hp s hs
        · simp only [List.mem_singleton] at hs
          rw [hs]
          exact hl x (by simp)
      · rw [if_neg hk] at hpe
        subst hpe
        exact hacc p hp s hs
    · rw [List.mem_append] at hg
      rcases hg with hg | hg
      · exact hacc g hg s hs
      · simp only [List.mem_singleton] at hg
        subst hg
        simp only [List.mem_singleton] at hs
        rw [hs]
        exact hl x (by simp)

theorem groupByPool_mem_subset (swaps : List Swap) :
    ∀ g ∈ groupByPool swaps, ∀ s ∈ g.2, s ∈ swaps :=
  groupByPool_foldl_subset (fun s => s ∈ swaps) swaps [] (by simp)
    (fun _ hx => hx)

end SandwichDetector

/-- Front-run swap of a concrete same-transaction sandwich pattern on pool
`"P"`: x→y by `"attacker"`. -/
def swapFront : Swap :=
  { tx_hash := "t", block_number := 5, dex := "uniswap_v2"
    pool_address := "P", token_in := "x", token_out := "y"
    amount_in := 100, amount_out := 1, from_address := "attacker" }

/-- Victim swap of the concrete pattern: same direction x→y, by `"victim"`,
in the same transaction `"t"` at the same (default) position. -/
def swapVictim : Swap :=
  { tx_hash := "t", block_number := 5, dex := "uniswap_v2"
    pool_address := "P", token_in := "x", token_out := "y"
    amount_in := 50, amount_out := 40, from_address := "victim" }

/-- Back-run swap of the concrete pattern: opposite direction y→x by
`"attacker"`, again transaction `"t"`, position `0`. -/
def swapBack : Swap :=
  { tx_hash := "t", block_number := 5, dex := "uniswap_v2"
    pool_address := "P", token_in := "y", token_out := "x"
    amount_in := 1, amount_out := 200, from_address := "attacker" }

/-- The `Sandwich` the detector builds from
`[swapFront, swapVictim, swapBack]`. -/
def sandwichSameTx : Sandwich :=
  { frontrun_tx := some "t", target_tx := "t", backrun_tx := some "t"
    block_number := 5
    profit_eth := pyDiv 100 (Int.ofNat (10 ^ 18))
    profit_token := "x", profit_amount := 100
    victim_swap := swapVictim
    frontrun_swap := some swapFront, backrun_swap := some swapBack }

/-- Counterexample to C6: the three swaps of `sandwichSameTx` all come from
the same transaction `"t"` with the same transaction position `0`, yet
`SandwichDetector.detect_historical` reports the sandwich — the detector
never checks that the three swaps belong to three distinct transactions or
that their positions strictly increase. -/
theorem C6_counterexample :
    SandwichDetector.detect_historical [swapFront, swapVictim, swapBack] 5 =
        [sandwichSameTx] ∧
      sandwichSameTx.frontrun_tx = some "t" ∧
      sandwichSameTx.target_tx = "t" ∧
      sandwichSameTx.backrun_tx = some "t" ∧
      swapFront.transaction_position = 0 ∧
      swapVictim.transaction_position = 0 ∧
      swapBack.transaction_position = 0 := by
  refine ⟨by decide, rfl, rfl, rfl, rfl, rfl, rfl⟩

/-- C6 (amended): every Sandwich returned by
`SandwichDetector.detect_historical` is built from three swaps on the same
pool (case-insensitively) appearing in that order in the stable sort of the
pool's swaps by `transaction_position` — so with non-decreasing (not
necessarily strictly increasing) positions, and not necessarily from
distinct transactions — where front-run and back-run carry the same
non-empty `from_address` (case-insensitively), the tokens satisfy
`F.token_in ~ V.token_in ~ B.token_out` and
`F.token_out ~ V.token_out ~ B.token_in` (case-insensitively), and
`F.amount_in < B.amount_out`. -/
theorem C6_amended_sandwich_shape (swaps : List Swap) (blockNumber : Nat)
    (sd : Sandwich)
    (h : sd ∈ SandwichDetector.detect_historical swaps blockNumber) :
    ∃ F V B, sd.frontrun_swap = some F ∧ sd.victim_swap = V ∧
      sd.backrun_swap = some B ∧
      pyLower F.pool_address = pyLower V.pool_address ∧
      pyLower V.pool_address = pyLower B.pool_address ∧
      F.from_address ≠ "" ∧ B.from_address ≠ "" ∧
      pyLower F.from_address = pyLower B.from_address ∧
      pyLower F.token_in = pyLower V.token_in ∧
      pyLower F.token_out = pyLower V.token_out ∧
      pyLower B.token_in = pyLower V.token_out ∧
      pyLower B.token_out = pyLower V.token_in ∧
      F.amount_in < B.amount_out ∧
      F.transaction_position ≤ V.transaction_position ∧
      V.transaction_position ≤ B.transaction_position := by
  unfold SandwichDetector.detect_historical at h
  rw [List.mem_flatten] at h
  obtain ⟨l, hl, hsdl⟩ := h
  rw [List.mem_map] at hl
  obtain ⟨g, hg, rfl⟩ := hl
  by_cases h3 : g.2.length < 3
  · rw [if_pos h3] at hsdl
    simp at hsdl
  · rw [if_neg h3] at hsdl
    obtain ⟨i, j, hij, htm⟩ := SandwichDetector.sandwichesForPool_mem hsdl
    have hij1 : i + 1 < j := by omega
    obtain ⟨F, V, B, hFi, hVi, hBj, e1, e2, e3, c1, c2, c3, p1, p2, p3, p4,
      amt⟩ := SandwichDetector.tryMake_some hij1 htm
    have hsorted :
        List.Pairwise SandwichDetector.posLe
          (SandwichDetector.sortByPosition g.2) :=
      List.sorted_insertionSort SandwichDetector.posLe g.2
    obtain ⟨hFlt, hFget⟩ := List.getElem?_eq_some.mp hFi
    obtain ⟨hVlt, hVget⟩ := List.getElem?_eq_some.mp hVi
    obtain ⟨hBlt, hBget⟩ := List.getElem?_eq_some.mp hBj
    have hpair := List.pairwise_iff_getElem.mp hsorted
    have posFV : SandwichDetector.posLe F V := by
      have hp2 := hpair i (i + 1) hFlt hVlt (by omega)
      rwa [hFget, hVget] at hp2
    have posVB : SandwichDetector.posLe V B := by
      have hp2 := hpair (i + 1) j hVlt hBlt (by omega)
      rwa [hVget, hBget] at hp2
    have hpool := SandwichDetector.groupByPool_mem_pool swaps g hg
    have hFmem : F ∈ g.2 := by
      rw [← List.mem_insertionSort SandwichDetector.posLe]
      exact hFget ▸ List.getElem_mem hFlt
    have hVmem : V ∈ g.2 := by
      rw [← List.mem_insertionSort SandwichDetector.posLe]
      exact hVget ▸ List.getElem_mem hVlt
    have hBmem : B ∈ g.2 := by
      rw [← List.mem_insertionSort SandwichDetector.posLe]
      exact hBget ▸ List.getElem_mem hBlt
    refine ⟨F, V, B, e1, e2, e3, ?_, ?_, c1, c2, c3, p1, p2, p3, p4, amt,
      posFV, posVB⟩
    · rw [hpool F hFmem, hpool V hVmem]
    · rw [hpool V hVmem, hpool B hBmem]

/-- Witness for the amended C6 at the concrete pattern
`[swapFront, swapVictim, swapBack]`. -/
theorem C6_witness :
    ∃ F V B, sandwichSameTx.frontrun_swap = some F ∧
      sandwichSameTx.victim_swap = V ∧
      sandwichSameTx.backrun_swap = some B ∧
      pyLower F.pool_address = pyLower V.pool_address ∧
      pyLower V.pool_address = pyLower B.pool_address ∧
      F.from_address ≠ "" ∧ B.from_address ≠ "" ∧
      pyLower F.from_address = pyLower B.from_address ∧
      pyLower F.token_in = pyLower V.token_in ∧
      pyLower F.token_out = pyLower V.token_out ∧
      pyLower B.token_in = pyLower V.token_out ∧
      pyLower B.token_out = pyLower V.token_in ∧
      F.amount_in < B.amount_out ∧
      F.transaction_position ≤ V.transaction_position ∧
      V.transaction_position ≤ B.transaction_position :=
  C6_amended_sandwich_shape [swapFront, swapVictim, swapBack] 5 sandwichSameTx
    (by decide)

namespace SandwichDetector

theorem tryMake_empty_from {ps : List Swap} {i j bn : Nat}
    (h : ∀ s ∈ ps, s.from_address = "") : tryMake ps i j bn = none := by
  unfold tryMake
  cases hFi : ps[i]? with
  | none => rfl
  | some F =>
    simp only [Option.some_bind]
    cases hBj : ps[j]? with
    | none => rfl
    | some B =>
      simp only [Option.some_bind]
      have hFmem : F ∈ ps := by
        obtain ⟨hlt, hget⟩ := List.getElem?_eq_some.mp hFi
        exact hget ▸ List.getElem_mem hlt
      have hFe : F.from_address = "" := h F hFmem
      rw [if_pos (by simp [hFe])]

theorem sandwichesForPool_empty {ps : List Swap} {bn : Nat}
    (h : ∀ i j, tryMake ps i j bn = none) : sandwichesForPool ps bn = [] := by
  unfold sandwichesForPool
  have hnone : ∀ i : Nat,
      firstSome (fun j => tryMake ps i j bn)
        (List.range' (i + 2) (ps.length - (i + 2))) = none := by
    intro i
    exact firstSome_eq_none (fun j _ => h i j)
  have hfun :
      (fun (acc : List Sandwich) (i : Nat) =>
        appendIfSome acc
          (firstSome (fun j => tryMake ps i j bn)
            (List.range' (i + 2) (ps.length - (i + 2))))) =
      fun acc _ => acc := by
    funext acc i
    rw [hnone i]
    rfl
  rw [hfun]
  generalize List.range (ps.length - 2) = l
  induction l with
  | nil => rfl
  | cons a t ih => simp [ih]

end SandwichDetector

/-- C10: the sandwich detector only builds a Sandwich from candidate pairs
whose `from_address` fields are both non-empty, so on any swap list where
every swap carries the default empty `from_address` it returns the empty
list; and the `Swap`s built by `UniswapV2Parser.parse_swap` always carry the
default `from_address = ""` and `transaction_position = 0`, since the
constructor call never sets them. -/
theorem C10_empty_from_address_no_sandwich
    (swaps : List Swap) (blockNumber : Nat)
    (h : ∀ s ∈ swaps, s.from_address = "") :
    SandwichDetector.detect_historical swaps blockNumber = [] ∧
    ∀ txHash bn pool tokin tokout aIn aOut,
      (UniswapV2Parser.parse_swap_result txHash bn pool tokin tokout
        aIn aOut).from_address = "" ∧
      (UniswapV2Parser.parse_swap_result txHash bn pool tokin tokout
        aIn aOut).transaction_position = 0 := by
  refine ⟨?_, fun _ _ _ _ _ _ _ => ⟨rfl, rfl⟩⟩
  unfold SandwichDetector.detect_historical
  rw [List.flatten_eq_nil_iff]
  intro l hl
  rw [List.mem_map] at hl
  obtain ⟨g, hg, rfl⟩ := hl
  by_cases h3 : g.2.length < 3
  · rw [if_pos h3]
  · rw [if_neg h3]
    apply SandwichDetector.sandwichesForPool_empty
    intro i j
    apply SandwichDetector.tryMake_empty_from
    intro s hs
    rw [SandwichDetector.sortByPosition, List.mem_insertionSort] at hs
    exact h s (SandwichDetector.groupByPool_mem_subset swaps g hg s hs)

/-- Copy of `swapFront` with the dataclass-default empty `from_address`. -/
def swapFront0 : Swap := { swapFront with from_address := "" }

/-- Copy of `swapVictim` with the dataclass-default empty `from_address`. -/
def swapVictim0 : Swap := { swapVictim with from_address := "" }

/-- Copy of `swapBack` with the dataclass-default empty `from_address`. -/
def swapBack0 : Swap := { swapBack with from_address := "" }

/-- Witness for C10: a full sandwich-shaped pattern whose swaps all carry
the default empty `from_address` yields no Sandwich. -/
theorem C10_witness :
    SandwichDetector.detect_historical [swapFront0, swapVictim0, swapBack0]
        5 = [] ∧
    ∀ txHash bn pool tokin tokout aIn aOut,
      (UniswapV2Parser.parse_swap_result txHash bn pool tokin tokout
        aIn aOut).from_address = "" ∧
      (UniswapV2Parser.parse_swap_result txHash bn pool tokin tokout
        aIn aOut).transaction_position = 0 :=
  C10_empty_from_address_no_sandwich [swapFront0, swapVictim0, swapBack0] 5
    (by decide)

/-! ## Block inspection (`mev_inspect/inspector.py`) -/

namespace Inspector

/-- One transaction of the block with its receipt, as consumed by the
swap-extraction loop of `_inspect_block_phase2_4` (the receipt `status`
already converted from its hex form; log payloads left abstract). -/
structure TxWithReceipt (L : Type) where
  tx_hash : String
  tx_input : String
  status : Nat
  logs : List L

/-- The body of the Phase-3 extraction loop for one transaction: swaps are
parsed from the logs only under `if status == 1 and logs:`; every log is
offered to every DEX parser in order (a parser abstracts
`parser.parse_swap(tx_hash, tx_input, [log], block_number)` with its RPC
lookups folded in; a raised exception is a `none`). -/
def extractStep {L : Type}
    (parsers : List (String → String → L → Option Swap))
    (acc : List Swap) (tx : TxWithReceipt L) : List Swap :=
  if tx.status == 1 && !tx.logs.isEmpty then
    acc ++ tx.logs.foldl
      (fun acc2 log =>
        acc2 ++ parsers.filterMap (fun p => p tx.tx_hash tx.tx_input log))
      []
  else acc

/-- The Phase-3 swap-extraction loop of `_inspect_block_phase2_4` over the
block transactions, producing `all_swaps`. -/
def extractSwaps {L : Type}
    (parsers : List (String → String → L → Option Swap))
    (txs : List (TxWithReceipt L)) : List Swap :=
  txs.foldl (extractStep parsers) []

theorem extractSwaps_foldl_filter {L : Type}
    (parsers : List (String → String → L → Option Swap)) :
    ∀ (txs : List (TxWithReceipt L)) (acc : List Swap),
      txs.foldl (extractStep parsers) acc =
        (txs.filter (fun tx => tx.status == 1)).foldl
          (extractStep parsers) acc := by
  intro txs
  induction txs with
  | nil => intro acc; rfl
  | cons tx t ih =>
    intro acc
    simp only [List.foldl_cons, List.filter_cons]
    by_cases hst : (tx.status == 1) = true
    · rw [if_pos hst]
      simp only [List.foldl_cons]
      exact ih _
    · rw [if_neg hst]
      have hstep : extractStep parsers acc tx = acc := by
        unfold extractStep
        rw [if_neg]
        intro hc
        rw [Bool.and_eq_true] at hc
        exact hst hc.1
      rw [hstep]
      exact ih _

/-- C7: a transaction whose receipt status is `0` (or anything other than
`1`) contributes no Swap records — `all_swaps` equals what the loop produces
on the status-1 transactions alone — and therefore the arbitrage and
sandwich findings of the block, which are functions of `all_swaps`, are the
same as if the failed transactions were absent. -/
theorem C7_failed_tx_contributes_nothing {L : Type}
    (parsers : List (String → String → L → Option Swap))
    (txs : List (TxWithReceipt L)) (blockNumber : Nat) :
    extractSwaps parsers txs =
      extractSwaps parsers (txs.filter (fun tx => tx.status == 1)) ∧
    ArbitrageDetector.detect_historical (extractSwaps parsers txs)
        blockNumber =
      ArbitrageDetector.detect_historical
        (extractSwaps parsers (txs.filter (fun tx => tx.status == 1)))
        blockNumber ∧
    SandwichDetector.detect_historical (extractSwaps parsers txs)
        blockNumber =
      SandwichDetector.detect_historical
        (extractSwaps parsers (txs.filter (fun tx => tx.status == 1)))
        blockNumber := by
  have h := extractSwaps_foldl_filter parsers txs []
  exact ⟨h, by rw [extractSwaps, h]; rfl, by rw [extractSwaps, h]; rfl⟩

end Inspector

/-! ## Transaction replay (`mev_inspect/replay.py`) -/

/-- `replay.InternalCall` (the fields `CallTracer.add_call` writes). -/
structure InternalCall where
  call_type : String
  from_address : String
  to_address : String
  input_data : List Nat
  output_data : List Nat
  value : Nat
  gas_used : Nat
  success : Bool
  depth : Nat
  deriving DecidableEq, Repr

/-- `replay.StateChange`. -/
structure StateChange where
  address : String
  slot : Nat
  old_value : List Nat
  new_value : List Nat
  deriving DecidableEq, Repr

/-- `replay.ReplayResult`. -/
structure ReplayResult where
  success : Bool
  gas_used : Nat
  output : List Nat
  return_data : List Nat
  internal_calls : List InternalCall
  state_changes : List StateChange
  error : Option String
  deriving DecidableEq, Repr

namespace TransactionReplayer

/-- `TransactionReplayer._execute_with_tracing`: run the EVM message call
(abstracted as its outcome `exec`: `ok` output bytes, or `error` message
when pyrevm raises, e.g. on a revert) and append one top-level `CALL`
record to the call tracer; on failure the record is appended with
`success = False` and the exception is re-raised (the raised exception
carries the message, the tracer the mutated list). -/
def execute_with_tracing (caller toAddr : String) (input_data : List Nat)
    (value : Nat) (_gas_limit : Nat) (tracer : List InternalCall)
    (exec : Except String (List Nat)) :
    Except (String × List InternalCall) (List Nat × List InternalCall) :=
  match exec with
  | .ok output =>
    .ok (output, tracer ++
      [{ call_type := "CALL", from_address := caller, to_address := toAddr
         input_data := input_data, output_data := output, value := value
         gas_used := 0, success := true, depth := 0 }])
  | .error e =>
    .error (e, tracer ++
      [{ call_type := "CALL", from_address := caller, to_address := toAddr
         input_data := input_data, output_data := [], value := value
         gas_used := 0, success := false, depth := 0 }])

/-- The try/except core of
`TransactionReplayer.replay_transaction_with_data` for a transaction with a
target address: fresh `CallTracer`/`StateTracer`, then on a normal return
the on-chain receipt status decides `success` (error `"Transaction
reverted"` when it is not `1`) and the traced calls are kept, while when
the execution raises the `except` branch returns `success = False` with the
exception message and **empty** `internal_calls`/`state_changes`,
discarding what the tracers captured up to the revert. -/
def replay_transaction_with_data (receiptStatus gasUsed : Nat)
    (caller toAddr : String) (input_data : List Nat) (value gas_limit : Nat)
    (exec : Except String (List Nat)) : ReplayResult :=
  match execute_with_tracing caller toAddr input_data value gas_limit [] exec with
  | .ok (output, calls) =>
    { success := receiptStatus == 1
      gas_used := gasUsed
      output := output
      return_data := output
      internal_calls := calls
      state_changes := []
      error := if receiptStatus == 1 then none else some "Transaction reverted" }
  | .error (e, _) =>
    { success := false, gas_used := 0, output := [], return_data := []
      internal_calls := [], state_changes := [], error := some e }

end TransactionReplayer

/-- Counterexample to C8: replaying a transaction whose execution reverts
(`pyrevm` raises `"execution reverted"`) gives `success = False` and the
error message as claimed, but the `internal_calls` captured up to the
revert — the tracer holds the one failed top-level `CALL` record — are
discarded: the `ReplayResult` carries empty lists. -/
theorem C8_counterexample :
    (TransactionReplayer.replay_transaction_with_data 0 21000 "0xc" "0xt" []
        0 100 (Except.error "execution reverted")).success = false ∧
    (TransactionReplayer.replay_transaction_with_data 0 21000 "0xc" "0xt" []
        0 100 (Except.error "execution reverted")).error =
      some "execution reverted" ∧
    (TransactionReplayer.replay_transaction_with_data 0 21000 "0xc" "0xt" []
        0 100 (Except.error "execution reverted")).internal_calls = [] ∧
    TransactionReplayer.execute_with_tracing "0xc" "0xt" [] 0 100 []
        (Except.error "execution reverted") =
      Except.error ("execution reverted",
        [{ call_type := "CALL", from_address := "0xc", to_address := "0xt"
           input_data := [], output_data := [], value := 0
           gas_used := 0, success := false, depth := 0 }]) :=
  ⟨rfl, rfl, rfl, rfl⟩

/-- C8 (amended): when the replayed execution raises (reverts), the
`ReplayResult` has `success = False` and the exception message as its
error, but the internal calls and state changes captured up to the revert
are **discarded** (both lists come back empty); captured calls are retained
only on the non-raising path, where `success` mirrors the receipt status
and a status other than `1` yields the error `"Transaction reverted"`. -/
theorem C8_amended_revert_result (receiptStatus gasUsed : Nat)
    (caller toAddr : String) (input_data : List Nat) (value gas_limit : Nat) :
    (∀ e, TransactionReplayer.replay_transaction_with_data receiptStatus
        gasUsed caller toAddr input_data value gas_limit (Except.error e) =
      { success := false, gas_used := 0, output := [], return_data := []
        internal_calls := [], state_changes := [], error := some e }) ∧
    (∀ out,
      (TransactionReplayer.replay_transaction_with_data receiptStatus gasUsed
          caller toAddr input_data value gas_limit (Except.ok out)).success =
        (receiptStatus == 1) ∧
      (TransactionReplayer.replay_transaction_with_data receiptStatus gasUsed
          caller toAddr input_data value gas_limit (Except.ok out)).internal_calls =
        [{ call_type := "CALL", from_address := caller, to_address := toAddr
           input_data := input_data, output_data := out, value := value
           gas_used := 0, success := true, depth := 0 }] ∧
      (TransactionReplayer.replay_transaction_with_data receiptStatus gasUsed
          caller toAddr input_data value gas_limit (Except.ok out)).error =
        (if receiptStatus == 1 then none else some "Transaction reverted")) :=
  ⟨fun _ => rfl, fun _ => ⟨rfl, rfl, rfl⟩⟩

/-! ## State caching (`mev_inspect/state_manager.py`) -/

/-- `state_manager.LRUCache`: an `OrderedDict` with `move_to_end` on `get`
and eviction of the oldest entry when `maxsize` is exceeded on `set`.  The
association list keeps insertion/recency order: the head is the oldest
entry, the last element the most recently used.  The key type is a
parameter so that the storage key `f"{address.lower()}:{slot}"` can be
modelled by the pair it injectively encodes. -/
structure LRUCache (κ α : Type) where
  maxsize : Nat
  data : List (κ × α)
  deriving Repr

/-- Plain lookup in the ordered data (no recency update). -/
def lruLookup {κ α : Type} [BEq κ] (data : List (κ × α)) (k : κ) : Option α :=
  (data.find? (fun p => p.1 == k)).map Prod.snd

/-- `LRUCache.get`: `None` on a miss; on a hit, return the value and move
the entry to the most-recent end. -/
def lruGet {κ α : Type} [BEq κ] (c : LRUCache κ α) (k : κ) :
    Option α × LRUCache κ α :=
  match lruLookup c.data k with
  | none => (none, c)
  | some v =>
    (some v, ⟨c.maxsize, (c.data.filter (fun p => !(p.1 == k))) ++ [(k, v)]⟩)

/-- `LRUCache.set`: replace-and-move-to-end when the key exists, else append
and evict the oldest entry when `maxsize` is exceeded. -/
def lruSet {κ α : Type} [BEq κ] (c : LRUCache κ α) (k : κ) (v : α) :
    LRUCache κ α :=
  if (lruLookup c.data k).isSome then
    ⟨c.maxsize, (c.data.filter (fun p => !(p.1 == k))) ++ [(k, v)]⟩
  else
    let d := c.data ++ [(k, v)]
    ⟨c.maxsize, if c.maxsize < d.length then d.drop 1 else d⟩

/-- The account record `{balance: int, code: bytes}` cached by
`StateManager.get_account`. -/
structure Account where
  balance : Nat
  code : List Nat
  deriving DecidableEq, Repr

/-- One RPC issued by the StateManager, for counting. -/
inductive RPCCall where
  | getBalance (address : String) (blockNumber : Nat)
  | getCode (address : String)
  | getStorageAt (address : String) (slot : Nat) (blockNumber : Nat)
  deriving DecidableEq, Repr

/-- The behaviour of the underlying RPC client: `none` models a raised
exception (the `except` branches of the StateManager fall back to `0`,
`b""` and `b"\x00"`). -/
structure RPCSpec where
  get_balance : String → Nat → Option Nat
  get_code : String → Option (List Nat)
  get_storage_at : String → Nat → Nat → Option (List Nat)

namespace StateManager

/-- The mutable state of a `StateManager`: the configured block number and
the three LRU caches. -/
structure SM where
  block_number : Nat
  account_cache : LRUCache String Account
  storage_cache : LRUCache (String × Nat) (List Nat)
  code_cache : LRUCache String (List Nat)
  deriving Repr

end StateManager

namespace StateManager

/-- `StateManager.__init__` with the default cache sizes
(`account_cache_size=5000`, `storage_cache_size=20000`,
`code_cache_size=1000`) and empty caches. -/
def mkDefault (blockNumber : Nat) : SM :=
  { block_number := blockNumber
    account_cache := ⟨5000, []⟩
    storage_cache := ⟨20000, []⟩
    code_cache := ⟨1000, []⟩ }

/-- `StateManager.get_account`: serve from the account cache when present
(recency updated); on a miss issue one `get_balance` and one `get_code` RPC
(each falling back to `0` / `b""` on an exception), cache the record even
then, and return it.  The third component lists the RPCs issued. -/
def get_account (rpc : RPCSpec) (sm : SM) (address : String) :
    Account × SM × List RPCCall :=
  let key := pyLower address
  let r := lruGet sm.account_cache key
  match r.1 with
  | some cached => (cached, { sm with account_cache := r.2 }, [])
  | none =>
    let balance := (rpc.get_balance address sm.block_number).getD 0
    let code := (rpc.get_code address).getD []
    let account : Account := { balance := balance, code := code }
    (account, { sm with account_cache := lruSet r.2 key account },
      [RPCCall.getBalance address sm.block_number, RPCCall.getCode address])

/-- `StateManager.get_code`: like `get_account` but over the separate code
cache, issuing one `get_code` RPC on a miss (fallback `b""`). -/
def get_code (rpc : RPCSpec) (sm : SM) (address : String) :
    List Nat × SM × List RPCCall :=
  let key := pyLower address
  let r := lruGet sm.code_cache key
  match r.1 with
  | some cached => (cached, { sm with code_cache := r.2 }, [])
  | none =>
    let code := (rpc.get_code address).getD []
    (code, { sm with code_cache := lruSet r.2 key code },
      [RPCCall.getCode address])

/-- `StateManager.get_storage`: key `f"{address.lower()}:{slot}"` (modelled
by the pair), one `get_storage_at` RPC on a miss (fallback `b"\x00"`). -/
def get_storage (rpc : RPCSpec) (sm : SM) (address : String) (slot : Nat) :
    List Nat × SM × List RPCCall :=
  let key := (pyLower address, slot)
  let r := lruGet sm.storage_cache key
  match r.1 with
  | some cached => (cached, { sm with storage_cache := r.2 }, [])
  | none =>
    let value := (rpc.get_storage_at address slot sm.block_number).getD [0]
    (value, { sm with storage_cache := lruSet r.2 key value },
      [RPCCall.getStorageAt address slot sm.block_number])

/-- `StateManager.preload_addresses`: for each address, call `get_account`
when the account cache misses, then `get_code` when the (separate) code
cache misses; the probing `cache.get` calls also update recency. -/
def preload_addresses (rpc : RPCSpec) (sm : SM) (addresses : List String) :
    SM × List RPCCall :=
  addresses.foldl
    (fun st addr =>
      let akey := pyLower addr
      let r1 := lruGet st.1.account_cache akey
      let st1 : SM × List RPCCall :=
        match r1.1 with
        | some _ => ({ st.1 with account_cache := r1.2 }, st.2)
        | none =>
          let g := get_account rpc { st.1 with account_cache := r1.2 } addr
          (g.2.1, st.2 ++ g.2.2)
      let r2 := lruGet st1.1.code_cache akey
      match r2.1 with
      | some _ => ({ st1.1 with code_cache := r2.2 }, st1.2)
      | none =>
        let g2 := get_code rpc { st1.1 with code_cache := r2.2 } addr
        (g2.2.1, st1.2 ++ g2.2.2))
    (sm, [])

end StateManager

/-- A simple RPC whose calls always succeed (the counting mock of the unit
tests). -/
def mockRPC : RPCSpec :=
  { get_balance := fun _ _ => some 1000
    get_code := fun _ => some [96, 96, 96]
    get_storage_at := fun _ _ _ => some (List.replicate 32 0) }

/-- Counterexample to C9: preloading the single fresh address `"0xA"` on a
fresh default `StateManager` issues the `get_code` RPC **twice** — once
inside `get_account` (account cache) and once inside `get_code` (separate
code cache) — so a datum read repeatedly within one run is not fetched by
exactly one RPC in total. -/
theorem C9_counterexample :
    (StateManager.preload_addresses mockRPC (StateManager.mkDefault 12345)
        ["0xA"]).2 =
      [RPCCall.getBalance "0xA" 12345, RPCCall.getCode "0xA",
        RPCCall.getCode "0xA"] ∧
    ((StateManager.preload_addresses mockRPC (StateManager.mkDefault 12345)
        ["0xA"]).2.filter
          (fun c => c == RPCCall.getCode "0xA")).length = 2 := by
  refine ⟨by decide, by decide⟩

theorem lruGet_hit {κ α : Type} [BEq κ] {c : LRUCache κ α} {k : κ} {v : α}
    (h : lruLookup c.data k = some v) :
    lruGet c k =
      (some v,
        ⟨c.maxsize, (c.data.filter (fun p => !(p.1 == k))) ++ [(k, v)]⟩) := by
  unfold lruGet
  rw [h]

theorem lruGet_miss {κ α : Type} [BEq κ] {c : LRUCache κ α} {k : κ}
    (h : lruLookup c.data k = none) : lruGet c k = (none, c) := by
  unfold lruGet
  rw [h]

theorem lruLookup_filter_append {κ α : Type} [BEq κ] [LawfulBEq κ]
    (l : List (κ × α)) (k : κ) (v : α) :
    lruLookup ((l.filter (fun p => !(p.1 == k))) ++ [(k, v)]) k = some v := by
  unfold lruLookup
  rw [List.find?_append]
  have h1 : (l.filter (fun p => !(p.1 == k))).find? (fun p => p.1 == k) = none := by
    rw [List.find?_eq_none]
    intro p hp
    rw [List.mem_filter] at hp
    simpa using hp.2
  rw [h1]
  simp [List.find?]

theorem find?_eq_none_of_lookup_none {κ α : Type} [BEq κ]
    {l : List (κ × α)} {k : κ} (h : lruLookup l k = none) :
    l.find? (fun p => p.1 == k) = none := by
  unfold lruLookup at h
  cases hf : l.find? (fun p => p.1 == k) with
  | none => rfl
  | some p => rw [hf] at h; simp at h

theorem lruLookup_append_single {κ α : Type} [BEq κ] [LawfulBEq κ]
    (l : List (κ × α)) (k : κ) (v : α)
    (h : l.find? (fun p => p.1 == k) = none) :
    lruLookup (l ++ [(k, v)]) k = some v := by
  unfold lruLookup
  rw [List.find?_append, h]
  simp [List.find?]

theorem lruLookup_set_self {κ α : Type} [BEq κ] [LawfulBEq κ]
    (c : LRUCache κ α) (k : κ) (v : α)
    (hmiss : lruLookup c.data k = none) (hsize : 1 ≤ c.maxsize) :
    lruLookup (lruSet c k v).data k = some v := by
  have hfind := find?_eq_none_of_lookup_none hmiss
  unfold lruSet
  rw [hmiss]
  rw [if_neg (by simp)]
  dsimp only
  by_cases hlen : c.maxsize < (c.data ++ [(k, v)]).length
  · rw [if_pos hlen]
    cases hd : c.data with
    | nil =>
      rw [hd] at hlen
      simp at hlen
      omega
    | cons a t =>
      have hdrop : ((a :: t) ++ [(k, v)]).drop 1 = t ++ [(k, v)] := by
        simp
      rw [hdrop]
      refine lruLookup_append_single _ _ _ ?_
      rw [List.find?_eq_none]
      intro x hx
      have hall := List.find?_eq_none.mp (hd ▸ hfind)
      exact hall x (by simp [hx])
  · rw [if_neg hlen]
    exact lruLookup_append_single _ _ _ hfind

namespace StateManager

theorem get_code_second_read (rpc : RPCSpec) (sm : SM) (address : String)
    (hsize : 1 ≤ sm.code_cache.maxsize) :
    (get_code rpc (get_code rpc sm address).2.1 address).1 =
      (get_code rpc sm address).1 ∧
    (get_code rpc (get_code rpc sm address).2.1 address).2.2 = [] := by
  dsimp only [get_code]
  cases hl : lruLookup sm.code_cache.data (pyLower address) with
  | some v =>
    rw [lruGet_hit hl]
    dsimp only
    rw [lruGet_hit (lruLookup_filter_append sm.code_cache.data
      (pyLower address) v)]
    exact ⟨rfl, rfl⟩
  | none =>
    rw [lruGet_miss hl]
    dsimp only
    rw [lruGet_hit (lruLookup_set_self sm.code_cache (pyLower address)
      ((rpc.get_code address).getD []) hl hsize)]
    exact ⟨rfl, rfl⟩

theorem get_account_second_read (rpc : RPCSpec) (sm : SM) (address : String)
    (hsize : 1 ≤ sm.account_cache.maxsize) :
    (get_account rpc (get_account rpc sm address).2.1 address).1 =
      (get_account rpc sm address).1 ∧
    (get_account rpc (get_account rpc sm address).2.1 address).2.2 = [] := by
  dsimp only [get_account]
  cases hl : lruLookup sm.account_cache.data (pyLower address) with
  | some v =>
    rw [lruGet_hit hl]
    dsimp only
    rw [lruGet_hit (lruLookup_filter_append sm.account_cache.data
      (pyLower address) v)]
    exact ⟨rfl, rfl⟩
  | none =>
    rw [lruGet_miss hl]
    dsimp only
    rw [lruGet_hit (lruLookup_set_self sm.account_cache (pyLower address)
      { balance := (rpc.get_balance address sm.block_number).getD 0
        code := (rpc.get_code address).getD [] } hl hsize)]
    exact ⟨rfl, rfl⟩

theorem get_storage_second_read (rpc : RPCSpec) (sm : SM) (address : String)
    (slot : Nat) (hsize : 1 ≤ sm.storage_cache.maxsize) :
    (get_storage rpc (get_storage rpc sm address slot).2.1 address slot).1 =
      (get_storage rpc sm address slot).1 ∧
    (get_storage rpc (get_storage rpc sm address slot).2.1 address
      slot).2.2 = [] := by
  dsimp only [get_storage]
  cases hl : lruLookup sm.storage_cache.data (pyLower address, slot) with
  | some v =>
    rw [lruGet_hit hl]
    dsimp only
    rw [lruGet_hit (lruLookup_filter_append sm.storage_cache.data
      (pyLower address, slot) v)]
    exact ⟨rfl, rfl⟩
  | none =>
    rw [lruGet_miss hl]
    dsimp only
    rw [lruGet_hit (lruLookup_set_self sm.storage_cache (pyLower address, slot)
      ((rpc.get_storage_at address slot sm.block_number).getD [0]) hl hsize)]
    exact ⟨rfl, rfl⟩

end StateManager

/-- C9 (amended): within one `StateManager` run, each accessor issues its
RPC(s) exactly on a cache miss — `get_code` one `eth_getCode`,
`get_account` one `eth_getBalance` plus one `eth_getCode`, `get_storage`
one `eth_getStorageAt` — the miss caches the value (even when the RPC
fails, via the fallback), and an immediately repeated read of the same key
through the **same** accessor is served from cache with no RPC and the same
value (given a nonzero cache capacity, since an LRU eviction can drop the
entry).  The account cache and the code cache are, however, separate: code
read through `get_account` and through `get_code` issues one `eth_getCode`
each, as `preload_addresses` does for every fresh address. -/
theorem C9_amended_per_cache_rpc
    (rpc : RPCSpec) (sm : StateManager.SM) (address : String) (slot : Nat)
    (hacct : 1 ≤ sm.account_cache.maxsize)
    (hstor : 1 ≤ sm.storage_cache.maxsize)
    (hcode : 1 ≤ sm.code_cache.maxsize) :
    ((StateManager.get_code rpc sm address).2.2 =
      if (lruLookup sm.code_cache.data (pyLower address)).isSome then []
      else [RPCCall.getCode address]) ∧
    ((StateManager.get_account rpc sm address).2.2 =
      if (lruLookup sm.account_cache.data (pyLower address)).isSome then []
      else [RPCCall.getBalance address sm.block_number,
        RPCCall.getCode address]) ∧
    ((StateManager.get_storage rpc sm address slot).2.2 =
      if (lruLookup sm.storage_cache.data (pyLower address, slot)).isSome
      then [] else [RPCCall.getStorageAt address slot sm.block_number]) ∧
    ((StateManager.get_code rpc
        (StateManager.get_code rpc sm address).2.1 address).1 =
      (StateManager.get_code rpc sm address).1) ∧
    ((StateManager.get_code rpc
        (StateManager.get_code rpc sm address).2.1 address).2.2 = []) ∧
    ((StateManager.get_account rpc
        (StateManager.get_account rpc sm address).2.1 address).1 =
      (StateManager.get_account rpc sm address).1) ∧
    ((StateManager.get_account rpc
        (StateManager.get_account rpc sm address).2.1 address).2.2 = []) ∧
    ((StateManager.get_storage rpc
        (StateManager.get_storage rpc sm address slot).2.1 address slot).1 =
      (StateManager.get_storage rpc sm address slot).1) ∧
    ((StateManager.get_storage rpc
        (StateManager.get_storage rpc sm address slot).2.1 address
        slot).2.2 = []) := by
  obtain ⟨hc1, hc2⟩ := StateManager.get_code_second_read rpc sm address hcode
  obtain ⟨ha1, ha2⟩ := StateManager.get_account_second_read rpc sm address hacct
  obtain ⟨hs1, hs2⟩ :=
    StateManager.get_storage_second_read rpc sm address slot hstor
  refine ⟨?_, ?_, ?_, hc1, hc2, ha1, ha2, hs1, hs2⟩
  · dsimp only [StateManager.get_code]
    cases hl : lruLookup sm.code_cache.data (pyLower address) with
    | some v => rw [lruGet_hit hl]; rfl
    | none => rw [lruGet_miss hl]; rfl
  · dsimp only [StateManager.get_account]
    cases hl : lruLookup sm.account_cache.data (pyLower address) with
    | some v => rw [lruGet_hit hl]; rfl
    | none => rw [lruGet_miss hl]; rfl
  · dsimp only [StateManager.get_storage]
    cases hl : lruLookup sm.storage_cache.data (pyLower address, slot) with
    | some v => rw [lruGet_hit hl]; rfl
    | none => rw [lruGet_miss hl]; rfl

/-- Witness for the amended C9 on a fresh default `StateManager` (all three
default capacities are nonzero) with the counting mock RPC. -/
theorem C9_witness :
    ((StateManager.get_code mockRPC (StateManager.mkDefault 12345) "0xA").2.2 =
      if (lruLookup (StateManager.mkDefault 12345).code_cache.data
        (pyLower "0xA")).isSome then [] else [RPCCall.getCode "0xA"]) ∧
    ((StateManager.get_account mockRPC (StateManager.mkDefault 12345)
        "0xA").2.2 =
      if (lruLookup (StateManager.mkDefault 12345).account_cache.data
        (pyLower "0xA")).isSome then []
      else [RPCCall.getBalance "0xA" (StateManager.mkDefault 12345).block_number,
        RPCCall.getCode "0xA"]) ∧
    ((StateManager.get_storage mockRPC (StateManager.mkDefault 12345) "0xA"
        6).2.2 =
      if (lruLookup (StateManager.mkDefault 12345).storage_cache.data
        (pyLower "0xA", 6)).isSome then []
      else [RPCCall.getStorageAt "0xA" 6
        (StateManager.mkDefault 12345).block_number]) ∧
    ((StateManager.get_code mockRPC
        (StateManager.get_code mockRPC (StateManager.mkDefault 12345)
          "0xA").2.1 "0xA").1 =
      (StateManager.get_code mockRPC (StateManager.mkDefault 12345) "0xA").1) ∧
    ((StateManager.get_code mockRPC
        (StateManager.get_code mockRPC (StateManager.mkDefault 12345)
          "0xA").2.1 "0xA").2.2 = []) ∧
    ((StateManager.get_account mockRPC
        (StateManager.get_account mockRPC (StateManager.mkDefault 12345)
          "0xA").2.1 "0xA").1 =
      (StateManager.get_account mockRPC (StateManager.mkDefault 12345)
        "0xA").1) ∧
    ((StateManager.get_account mockRPC
        (StateManager.get_account mockRPC (StateManager.mkDefault 12345)
          "0xA").2.1 "0xA").2.2 = []) ∧
    ((StateManager.get_storage mockRPC
        (StateManager.get_storage mockRPC (StateManager.mkDefault 12345)
          "0xA" 6).2.1 "0xA" 6).1 =
      (StateManager.get_storage mockRPC (StateManager.mkDefault 12345)
        "0xA" 6).1) ∧
    ((StateManager.get_storage mockRPC
        (StateManager.get_storage mockRPC (StateManager.mkDefault 12345)
          "0xA" 6).2.1 "0xA" 6).2.2 = []) :=
  C9_amended_per_cache_rpc mockRPC (StateManager.mkDefault 12345) "0xA" 6
    (by decide) (by decide) (by decide)
